import Mathlib

/-!
Shallow embedding of the csv_logger crate (src/lib.rs and src/table.rs) for one
table name. Machine integers (`usize`) become `Nat`; the source never relies on
overflow. The filesystem is restricted to the pieces the logger touches for a
single table: the map entry for the table, the per-epoch log files (represented
by their data-row count), and the epoch marker file (represented by its text
content as a `List Char`). Fallible external steps (the csv writer, `flush`)
are passed in as explicit outcomes.
-/

/-- Decimal digit character with value `d`, as emitted by Rust `usize::to_string`. -/
def digitChar48 (d : Nat) : Char := Char.ofNat (48 + d)

/-- Fuelled loop producing the decimal digits of `n` (most significant first) in
front of `acc`; any `fuel > n` is enough, so `natToString` below is total. -/
def natToStringAux : Nat → Nat → List Char → List Char
  | 0, _, acc => acc
  | fuel + 1, n, acc =>
    if n < 10 then digitChar48 (n % 10) :: acc
    else natToStringAux fuel (n / 10) (digitChar48 (n % 10) :: acc)

/-- Decimal rendering of a `usize`, as produced by `epoch.to_string()` in
`write_epoch` (src/lib.rs line 141). -/
def natToString (n : Nat) : List Char := natToStringAux (n + 1) n []

/-- Whether a character is an ASCII decimal digit. -/
def isAsciiDigit (c : Char) : Bool := 48 ≤ c.toNat && c.toNat ≤ 57

/-- Value of a non-empty, all-digit character run, read in base 10. -/
def parseDigits (cs : List Char) : Option Nat :=
  if (!cs.isEmpty) && cs.all isAsciiDigit then
    some (cs.foldl (fun a c => 10 * a + (c.toNat - 48)) 0)
  else none

/-- Rust `str::parse::<usize>` as used in `cur_epoch` (src/lib.rs line 157):
an optional leading plus sign followed by one or more decimal digits. -/
def rustParseUsize (cs : List Char) : Option Nat :=
  match cs with
  | [] => none
  | c :: rest => if c = '+' then parseDigits rest else parseDigits (c :: rest)

/-- Rust `usize::checked_sub` (src/lib.rs line 108). -/
def checkedSub (a b : Nat) : Option Nat := if b ≤ a then some (a - b) else none

/-- Error raised by the csv writer; its payload is irrelevant to the claims. -/
inductive CsvError where
  | ioErr : CsvError
deriving DecidableEq

/-- Per-table state from src/table.rs: the row count of the current epoch and
the current epoch number. The open writer handle is represented by the effect
of its rows on the file map (`appendRowToFile` below). -/
structure Table where
  records_written : Nat
  epoch : Nat
deriving DecidableEq

/-- Table::new (src/table.rs lines 11-17). -/
def Table.new (epoch : Nat) : Table := { records_written := 0, epoch := epoch }

/-- Table::replace (src/table.rs lines 19-23): swap in the next epoch's writer,
add one to the epoch, reset the row count. -/
def Table.replace (t : Table) : Table :=
  { records_written := 0, epoch := t.epoch + 1 }

/-- Table::serialize (src/table.rs lines 25-30): the writer outcome `res` is
external input; the early return on error leaves the counters untouched, and
on success the row count gains exactly one. -/
def Table.serialize (t : Table) (res : Except CsvError Unit) :
    Table × Except CsvError Unit :=
  match res with
  | Except.error e => (t, Except.error e)
  | Except.ok _ =>
    ({ t with records_written := t.records_written + 1 }, Except.ok ())

/-- RotationPolicy (src/lib.rs lines 97-100). In the source `max_records` is a
`NonZeroUsize`; theorems carry the hypothesis `0 < max_records` for it. -/
structure RotationPolicy where
  max_records : Nat
  max_epochs : Nat
deriving DecidableEq

/-- create_clean_log_writer (src/lib.rs lines 117-128) specialised to one
table: remove any stale file at the epoch's path and open a fresh empty one.
The file map sends an epoch to the data-row count of its file, or `none` when
no file exists at that path. -/
def create_clean_log_writer (files : Nat → Option Nat) (epoch : Nat) :
    Nat → Option Nat :=
  fun j => if j = epoch then some 0 else files j

/-- delete_old_log_file (src/lib.rs lines 102-115): when the checked
subtraction `epoch - max_epochs` succeeds, remove the file at that epoch. -/
def delete_old_log_file (epoch max_epochs : Nat) (files : Nat → Option Nat) :
    Nat → Option Nat :=
  match checkedSub epoch max_epochs with
  | none => files
  | some d => fun j => if j = d then none else files j

/-- write_epoch (src/lib.rs lines 130-143): the marker file ends up holding the
decimal text of `epoch` (the source deletes any old marker, then creates and
writes a fresh one). -/
def write_epoch (epoch : Nat) : Option (List Char) := some (natToString epoch)

/-- cur_epoch (src/lib.rs lines 145-165): returns the marker file state after
the call together with the recovered number. A missing marker recovers `none`;
an unparseable marker is deleted and also recovers `none`. -/
def cur_epoch (marker : Option (List Char)) : Option (List Char) × Option Nat :=
  match marker with
  | none => (none, none)
  | some content =>
    match rustParseUsize content with
    | some e => (some content, some e)
    | none => (none, none)

/-- Effect of one `writer.serialize` row on the on-disk files: the row reaches
the file at the writer's epoch only when that path still exists; a deleted file
keeps receiving rows through the open handle, invisibly to the filesystem. -/
def appendRowToFile (epoch : Nat) (files : Nat → Option Nat) :
    Nat → Option Nat :=
  fun j => if j = epoch then (files epoch).map (· + 1) else files j

/-- State of the logger restricted to one table name: the table-map entry, the
log files keyed by epoch, and the epoch marker file content. -/
structure LogState where
  table : Option Table
  files : Nat → Option Nat
  marker : Option (List Char)

/-- Starting epoch for a table name absent from the map (src/lib.rs lines
53-55): `cur_epoch(..).map(|e| e + 1).unwrap_or_default()`. -/
def startingEpoch (marker : Option (List Char)) : Nat :=
  (((cur_epoch marker).2).map (· + 1)).getD 0

/-- Lines 72-88 of src/lib.rs: append the record (on the successful-serialize
path) and, when the row count has reached `max_records`, open the next epoch's
writer, replace, persist the new epoch and run retention. -/
def appendAndRotate (rot : RotationPolicy) (t : Table) (files : Nat → Option Nat)
    (marker : Option (List Char)) : LogState :=
  let t := (t.serialize (Except.ok ())).1
  let files := appendRowToFile t.epoch files
  if rot.max_records ≤ t.records_written then
    let files := create_clean_log_writer files (t.epoch + 1)
    let t := t.replace
    let marker := write_epoch t.epoch
    let files := delete_old_log_file t.epoch rot.max_epochs files
    { table := some t, files := files, marker := marker }
  else
    { table := some t, files := files, marker := marker }

/-- CsvLogger::log (src/lib.rs lines 48-89) for one table name, on the path
where serialization succeeds (a failure panics with no further state change).
A vacant map entry recovers the starting epoch, opens a clean file there,
persists the epoch marker and runs retention, then appends like any other
call. -/
def CsvLogger.log (rot : RotationPolicy) (s : LogState) : LogState :=
  match s.table with
  | some t => appendAndRotate rot t s.files s.marker
  | none =>
    let epoch := startingEpoch s.marker
    let files := create_clean_log_writer s.files epoch
    let t := Table.new epoch
    let marker := write_epoch t.epoch
    let files := delete_old_log_file t.epoch rot.max_epochs files
    appendAndRotate rot t files marker

/-- Fresh logger state: no table entry, no log files, no marker. -/
def initState : LogState :=
  { table := none, files := fun _ => none, marker := none }

/-- State after `n` log calls for the same table from a fresh state, within one
process lifetime. -/
def run (rot : RotationPolicy) : Nat → LogState
  | 0 => initState
  | n + 1 => CsvLogger.log rot (run rot n)

/-- Error raised by Table::flush (an `io::Error`; payload irrelevant). -/
inductive IoErr where
  | mk : IoErr
deriving DecidableEq

/-- CsvLogger::flush (src/lib.rs lines 91-95): `for_each` over the tables with
`expect`, which aborts the process at the first failing flush. The input is
the per-table flush outcome, in iteration order; the output is the number of
tables whose flush was attempted, together with the fatal error if any. -/
def CsvLogger.flush : List (Except IoErr Unit) → Nat × Option IoErr
  | [] => (0, none)
  | Except.ok _ :: rest =>
    let r := CsvLogger.flush rest
    (r.1 + 1, r.2)
  | Except.error e :: _ => (1, some e)

/-- Layout of a table's epoch files when the current epoch is `e` and its file
holds `r` rows, under policy `(k, me)`: the file at epoch `j` exists exactly
when `j` lies in the retention window of `e`, completed epochs hold `k` rows,
and the current epoch holds `r`. -/
def epochFilesSpec (k me e r : Nat) : Nat → Option Nat :=
  fun j => if j ≤ e ∧ e < j + me then some (if j < e then k else r) else none

theorem toNat_digitChar48 {d : Nat} (hd : d < 10) : (digitChar48 d).toNat = 48 + d := by
  interval_cases d <;> decide

theorem isAsciiDigit_digitChar48 {d : Nat} (hd : d < 10) :
    isAsciiDigit (digitChar48 d) = true := by
  interval_cases d <;> decide

theorem digitChar48_ne_plus {d : Nat} (hd : d < 10) : digitChar48 d ≠ '+' := by
  interval_cases d <;> decide

theorem natToStringAux_eq_digits :
    ∀ n, n ≠ 0 → ∀ fuel, n < fuel → ∀ acc,
      natToStringAux fuel n acc = (Nat.digits 10 n).reverse.map digitChar48 ++ acc := by
  intro n
  induction n using Nat.strong_induction_on with
  | _ n ih =>
    intro hn fuel hf acc
    obtain ⟨fuel, rfl⟩ : ∃ f, fuel = f + 1 := ⟨fuel - 1, by omega⟩
    by_cases h10 : n < 10
    · rw [natToStringAux, if_pos h10, Nat.digits_of_lt 10 n hn h10,
        Nat.mod_eq_of_lt h10]
      simp
    · rw [natToStringAux, if_neg h10,
        ih (n / 10) (by omega) (by omega) fuel (by omega) _,
        @Nat.digits_def' 10 (by norm_num) n (Nat.pos_of_ne_zero hn)]
      simp

theorem foldl_map_digitChar48 :
    ∀ l : List Nat, (∀ d ∈ l, d < 10) →
      (l.reverse.map digitChar48).foldl (fun a c => 10 * a + (c.toNat - 48)) 0 =
        Nat.ofDigits 10 l := by
  intro l
  induction l with
  | nil => intro _; simp [Nat.ofDigits]
  | cons d l ih =>
    intro h
    have hd : d < 10 := h d (List.mem_cons_self ..)
    rw [List.reverse_cons, List.map_append, List.foldl_append,
      ih (fun x hx => h x (List.mem_cons_of_mem _ hx))]
    simp [Nat.ofDigits_cons, toNat_digitChar48 hd]
    omega

theorem natToString_eq_digits (n : Nat) (hn : n ≠ 0) :
    natToString n = (Nat.digits 10 n).reverse.map digitChar48 := by
  rw [natToString, natToStringAux_eq_digits n hn (n + 1) (by omega), List.append_nil]

theorem rustParseUsize_natToString (n : Nat) :
    rustParseUsize (natToString n) = some n := by
  by_cases hn : n = 0
  · subst hn; decide
  · rw [natToString_eq_digits n hn]
    have hdig : ∀ d ∈ Nat.digits 10 n, d < 10 := fun d hd =>
      Nat.digits_lt_base (by norm_num) hd
    have hne : Nat.digits 10 n ≠ [] := Nat.digits_ne_nil_iff_ne_zero.2 hn
    set L := (Nat.digits 10 n).reverse.map digitChar48 with hL
    have hLne : L ≠ [] := by
      rw [hL]
      simpa using hne
    obtain ⟨c, cs, hcons⟩ := List.exists_cons_of_ne_nil hLne
    have hmem : c ∈ L := by rw [hcons]; exact List.mem_cons_self ..
    obtain ⟨d, hdm, hdc⟩ := List.mem_map.1 (by rwa [hL] at hmem)
    have hd10 : d < 10 := hdig d (List.mem_reverse.1 hdm)
    have hcp : c ≠ '+' := hdc ▸ digitChar48_ne_plus hd10
    have hside : ((!L.isEmpty) && L.all isAsciiDigit) = true := by
      rw [Bool.and_eq_true]
      refine ⟨by simp [hcons], ?_⟩
      rw [List.all_eq_true]
      intro x hx
      obtain ⟨d', hdm', rfl⟩ := List.mem_map.1 (hL ▸ hx)
      exact isAsciiDigit_digitChar48 (hdig d' (List.mem_reverse.1 hdm'))
    have hval : parseDigits L = some n := by
      rw [parseDigits, if_pos hside, hL, foldl_map_digitChar48 _ hdig,
        Nat.ofDigits_digits]
    rw [hcons, rustParseUsize, if_neg hcp, ← hcons, hval]

theorem log_of_some (rot : RotationPolicy) (s : LogState) (t : Table)
    (h : s.table = some t) :
    CsvLogger.log rot s = appendAndRotate rot t s.files s.marker := by
  unfold CsvLogger.log
  rw [h]

theorem log_of_none (rot : RotationPolicy) (s : LogState) (h : s.table = none) :
    CsvLogger.log rot s =
      appendAndRotate rot (Table.new (startingEpoch s.marker))
        (delete_old_log_file (startingEpoch s.marker) rot.max_epochs
          (create_clean_log_writer s.files (startingEpoch s.marker)))
        (write_epoch (startingEpoch s.marker)) := by
  unfold CsvLogger.log
  rw [h]
  rfl

theorem run_succ (rot : RotationPolicy) (n : Nat) :
    run rot (n + 1) = CsvLogger.log rot (run rot n) := rfl

theorem create_clean_apply (files : Nat → Option Nat) (epoch j : Nat) :
    create_clean_log_writer files epoch j = if j = epoch then some 0 else files j := rfl

theorem appendRow_apply (files : Nat → Option Nat) (epoch j : Nat) :
    appendRowToFile epoch files j =
      if j = epoch then (files epoch).map (· + 1) else files j := rfl

theorem delete_old_apply (epoch me : Nat) (files : Nat → Option Nat) (j : Nat) :
    delete_old_log_file epoch me files j =
      if me ≤ epoch ∧ j = epoch - me then none else files j := by
  rw [delete_old_log_file, checkedSub]
  by_cases h : me ≤ epoch
  · rw [if_pos h]
    by_cases hj : j = epoch - me
    · simp [hj, h]
    · simp [hj, h]
  · rw [if_neg h]
    simp only []
    rw [if_neg (by tauto)]

theorem appendAndRotate_no_rotate (k me e r : Nat)
    (files : Nat → Option Nat) (marker : Option (List Char))
    (hlt : r + 1 < k)
    (hf : ∀ j, files j = epochFilesSpec k me e r j) :
    (appendAndRotate ⟨k, me⟩ ⟨r, e⟩ files marker).table = some ⟨r + 1, e⟩ ∧
    (appendAndRotate ⟨k, me⟩ ⟨r, e⟩ files marker).marker = marker ∧
    ∀ j, (appendAndRotate ⟨k, me⟩ ⟨r, e⟩ files marker).files j =
      epochFilesSpec k me e (r + 1) j := by
  have hcond : ¬ (k ≤ r + 1) := by omega
  have hred : appendAndRotate ⟨k, me⟩ ⟨r, e⟩ files marker =
      { table := some ⟨r + 1, e⟩, files := appendRowToFile e files,
        marker := marker } := by
    rw [appendAndRotate]
    simp only [Table.serialize]
    rw [if_neg hcond]
  refine ⟨by rw [hred], by rw [hred], fun j => ?_⟩
  rw [hred]
  simp only [appendRow_apply, hf, epochFilesSpec]
  split_ifs <;> first
    | rfl
    | omega
    | (exfalso; omega)
    | (simp only [Option.map_some', Option.map_none', Option.some.injEq]
       omega)

theorem appendAndRotate_rotate (k me e r : Nat)
    (files : Nat → Option Nat) (marker : Option (List Char))
    (heq : r + 1 = k)
    (hf : ∀ j, files j = epochFilesSpec k me e r j) :
    (appendAndRotate ⟨k, me⟩ ⟨r, e⟩ files marker).table = some ⟨0, e + 1⟩ ∧
    (appendAndRotate ⟨k, me⟩ ⟨r, e⟩ files marker).marker =
      some (natToString (e + 1)) ∧
    ∀ j, (appendAndRotate ⟨k, me⟩ ⟨r, e⟩ files marker).files j =
      epochFilesSpec k me (e + 1) 0 j := by
  have hcond : k ≤ r + 1 := by omega
  have hred : appendAndRotate ⟨k, me⟩ ⟨r, e⟩ files marker =
      { table := some ⟨0, e + 1⟩,
        files := delete_old_log_file (e + 1) me
          (create_clean_log_writer (appendRowToFile e files) (e + 1)),
        marker := write_epoch (e + 1) } := by
    rw [appendAndRotate]
    simp only [Table.serialize, Table.replace]
    rw [if_pos hcond]
  refine ⟨by rw [hred], by rw [hred]; rfl, fun j => ?_⟩
  rw [hred]
  simp only [delete_old_apply, create_clean_apply, appendRow_apply, hf,
    epochFilesSpec]
  split_ifs <;> first
    | rfl
    | omega
    | (exfalso; omega)
    | (simp only [Option.map_some', Option.map_none', Option.some.injEq]
       omega)

/-- Files created together with a fresh table at epoch 0 from an empty
filesystem match the layout spec. -/
theorem fresh_files_spec (k me : Nat) :
    ∀ j, delete_old_log_file 0 me
        (create_clean_log_writer (fun _ => none) 0) j =
      epochFilesSpec k me 0 0 j := by
  intro j
  simp only [delete_old_apply, create_clean_apply, epochFilesSpec]
  by_cases hdel : me ≤ 0 ∧ j = 0 - me
  · rw [if_pos hdel, if_neg (by omega)]
  · rw [if_neg hdel]
    by_cases hj : j = 0
    · rw [if_pos hj]
      rw [if_pos (by omega)]
      rw [if_neg (by omega)]
    · rw [if_neg hj, if_neg (by omega)]

/-- Full characterisation of `n` log calls from a fresh state under policy
`(k, me)`: the table sits at epoch `n / k` with `n % k` rows in the current
file, the marker holds the decimal text of the current epoch, and the files
follow `epochFilesSpec`. -/
theorem run_spec (k me : Nat) (hk : 0 < k) :
    ∀ n, 0 < n →
      (run ⟨k, me⟩ n).table = some ⟨n % k, n / k⟩ ∧
      (run ⟨k, me⟩ n).marker = some (natToString (n / k)) ∧
      ∀ j, (run ⟨k, me⟩ n).files j =
        epochFilesSpec k me (n / k) (n % k) j := by
  intro n
  induction n with
  | zero => omega
  | succ n ih =>
    intro _
    by_cases hn : 0 < n
    · obtain ⟨ht, hm, hf⟩ := ih hn
      rw [run_succ, log_of_some ⟨k, me⟩ _ _ ht, hm]
      have hrk : n % k < k := Nat.mod_lt _ hk
      have hdm := Nat.div_add_mod n k
      by_cases hrot : n % k + 1 = k
      · obtain ⟨ht', hm', hf'⟩ :=
          appendAndRotate_rotate k me (n / k) (n % k) (run ⟨k, me⟩ n).files
            (some (natToString (n / k))) hrot hf
        have hmul : n + 1 = k * (n / k + 1) := by
          rw [Nat.mul_add, Nat.mul_one]
          omega
        have hdiv : (n + 1) / k = n / k + 1 := by
          rw [hmul, Nat.mul_div_cancel_left _ hk]
        have hmod : (n + 1) % k = 0 := by
          rw [hmul, Nat.mul_mod_right]
        rw [hdiv, hmod]
        exact ⟨ht', hm', hf'⟩
      · obtain ⟨ht', hm', hf'⟩ :=
          appendAndRotate_no_rotate k me (n / k) (n % k) (run ⟨k, me⟩ n).files
            (some (natToString (n / k))) (by omega) hf
        have hdiv : (n + 1) / k = n / k := by
          have h1 : n + 1 = (n % k + 1) + k * (n / k) := by omega
          rw [h1, Nat.add_mul_div_left _ _ hk,
            Nat.div_eq_of_lt (by omega), Nat.zero_add]
        have hmod : (n + 1) % k = n % k + 1 := by
          have h1 : n + 1 = (n % k + 1) + k * (n / k) := by omega
          rw [h1, Nat.add_mul_mod_self_left, Nat.mod_eq_of_lt (by omega)]
        rw [hdiv, hmod]
        exact ⟨ht', hm', hf'⟩
    · have hn0 : n = 0 := by omega
      subst hn0
      rw [run_succ, log_of_none ⟨k, me⟩ (run ⟨k, me⟩ 0) rfl]
      have hstart : startingEpoch (run ⟨k, me⟩ 0).marker = 0 := rfl
      rw [hstart]
      by_cases hone : k = 1
      · subst hone
        obtain ⟨ht', hm', hf'⟩ :=
          appendAndRotate_rotate 1 me 0 0 _ (write_epoch 0) (by omega)
            (fresh_files_spec 1 me)
        exact ⟨by simpa using ht', by simpa using hm',
          fun j => by simpa using hf' j⟩
      · obtain ⟨ht', hm', hf'⟩ :=
          appendAndRotate_no_rotate k me 0 0 _ (write_epoch 0) (by omega)
            (fresh_files_spec k me)
        have hdiv : 1 / k = 0 := Nat.div_eq_of_lt (by omega)
        have hmod : 1 % k = 1 := Nat.mod_eq_of_lt (by omega)
        rw [hdiv, hmod]
        exact ⟨by simpa using ht', by simpa using hm',
          fun j => by simpa using hf' j⟩

theorem appendAndRotate_table_of_lt (rot : RotationPolicy) (t : Table)
    (files : Nat → Option Nat) (marker : Option (List Char))
    (h : t.records_written + 1 < rot.max_records) :
    (appendAndRotate rot t files marker).table =
      some ⟨t.records_written + 1, t.epoch⟩ := by
  rw [appendAndRotate]
  simp only [Table.serialize]
  rw [if_neg (by omega)]

theorem appendAndRotate_table_of_ge (rot : RotationPolicy) (t : Table)
    (files : Nat → Option Nat) (marker : Option (List Char))
    (h : rot.max_records ≤ t.records_written + 1) :
    (appendAndRotate rot t files marker).table = some ⟨0, t.epoch + 1⟩ := by
  rw [appendAndRotate]
  simp only [Table.serialize, Table.replace]
  rw [if_pos (by omega)]

theorem appendAndRotate_marker_of_lt (rot : RotationPolicy) (t : Table)
    (files : Nat → Option Nat) (marker : Option (List Char))
    (h : t.records_written + 1 < rot.max_records) :
    (appendAndRotate rot t files marker).marker = marker := by
  rw [appendAndRotate]
  simp only [Table.serialize]
  rw [if_neg (by omega)]

theorem appendAndRotate_marker_of_ge (rot : RotationPolicy) (t : Table)
    (files : Nat → Option Nat) (marker : Option (List Char))
    (h : rot.max_records ≤ t.records_written + 1) :
    (appendAndRotate rot t files marker).marker =
      write_epoch (t.epoch + 1) := by
  rw [appendAndRotate]
  simp only [Table.serialize, Table.replace]
  rw [if_pos (by omega)]

/-- Claim C1 counterexample: with a recovered epoch marker holding `0`, the new
table is created at epoch `1`, not at the recovered value `0` as the claim
states; src/lib.rs lines 53-55 add 1 to the recovered value. -/
theorem C1_counterexample :
    startingEpoch (some (natToString 0)) = 1 ∧
    (CsvLogger.log ⟨2, 2⟩
      { table := none, files := fun _ => none,
        marker := some (natToString 0) }).table = some ⟨1, 1⟩ ∧
    (1 : Nat) ≠ 0 := by
  refine ⟨by decide, by decide, by decide⟩

/-- Claim C1 (amended): when a record arrives for a table name not yet in the
table map, the starting epoch is the recovered marker value plus one (the code
resumes after the last persisted epoch), defaulting to 0 when no marker is
found; for every recovered marker value `E` the new `Table` is created at
epoch `E + 1` and holds the one freshly appended record. -/
theorem C1_starting_epoch (E k me : Nat) (s : LogState)
    (hrec : (cur_epoch s.marker).2 = some E) (hs : s.table = none)
    (hk : 2 ≤ k) :
    startingEpoch s.marker = E + 1 ∧ startingEpoch none = 0 ∧
    (CsvLogger.log ⟨k, me⟩ s).table = some ⟨1, E + 1⟩ := by
  have hse : startingEpoch s.marker = E + 1 := by
    rw [startingEpoch, hrec]
    rfl
  refine ⟨hse, rfl, ?_⟩
  rw [log_of_none ⟨k, me⟩ s hs,
    appendAndRotate_table_of_lt _ _ _ _ (by simp [Table.new]; omega)]
  simp [Table.new, hse]

/-- Claim C1 witness: a fresh state whose marker holds `3` creates the table at
epoch `4` with the first record appended. -/
theorem C1_witness :
    (CsvLogger.log ⟨2, 0⟩
      { table := none, files := fun _ => none,
        marker := some (natToString 3) }).table = some ⟨1, 4⟩ :=
  (C1_starting_epoch 3 2 0
    { table := none, files := fun _ => none, marker := some (natToString 3) }
    (by decide) rfl (by decide)).2.2

/-- Claim C2 counterexample: with `max_records = 1`, the very first append
brings `records_written` to exactly `1 = max_records` — not strictly greater —
yet rotation fires (the epoch advances from 0 to 1 and the count resets),
because src/lib.rs line 75 rotates on `max_records <= records_written`. -/
theorem C2_counterexample :
    (CsvLogger.log ⟨1, 2⟩ initState).table = some ⟨0, 1⟩ ∧
    ¬ ((1 : Nat) > 1) := by
  refine ⟨by decide, by decide⟩

/-- Claim C2 (amended): for every log call on an existing table, rotation
happens if and only if, after the successful append, `records_written` is
greater than or equal to `max_records`: the epoch advances and the count
resets exactly when the post-append count reaches `max_records`, so a table
holds at most `max_records` rows in an epoch, not `max_records` without
rotating. -/
theorem C2_rotation_threshold (k me : Nat) (s : LogState) (t : Table)
    (hs : s.table = some t) :
    (CsvLogger.log ⟨k, me⟩ s).table =
      some (if k ≤ t.records_written + 1 then ⟨0, t.epoch + 1⟩
        else ⟨t.records_written + 1, t.epoch⟩) := by
  rw [log_of_some ⟨k, me⟩ s t hs]
  by_cases h : k ≤ t.records_written + 1
  · rw [if_pos h, appendAndRotate_table_of_ge _ _ _ _ h]
  · rw [if_neg h, appendAndRotate_table_of_lt _ _ _ _
      (show t.records_written + 1 < k by omega)]

/-- Claim C2 witness: under `max_records = 2`, the second append (count
reaching exactly 2) rotates to epoch 1 with the count reset to 0. -/
theorem C2_witness :
    (CsvLogger.log ⟨2, 2⟩ (run ⟨2, 2⟩ 1)).table = some ⟨0, 1⟩ :=
  C2_rotation_threshold 2 2 (run ⟨2, 2⟩ 1) ⟨1, 0⟩ (by decide)

/-- Claim C3 counterexample: with `max_records = 2`, after appending two
records the file for epoch 0 holds both rows AND the file for epoch 1 already
exists (created empty by the rotation that fired on the second append),
contradicting the claimed layout in which `test/1.csv` does not exist and a
table may hold `max_records + 1` rows per file. -/
theorem C3_counterexample :
    (run ⟨2, 2⟩ 2).files 0 = some 2 ∧ (run ⟨2, 2⟩ 2).files 1 = some 0 := by
  refine ⟨by decide, by decide⟩

/-- Claim C3 (amended): after `n` appends to one table in one process lifetime
with `max_records = k`, the table sits at epoch `n / k` holding `n % k` rows;
the file at epoch `j` exists iff `j` is at most the current epoch and inside
the retention window (`n / k < j + max_epochs`), completed epoch files hold
exactly `k` data rows (plus a header), and the newest file holds `n % k` data
rows — in particular with `k = 2` the second append rotates, so `0.csv` holds
both rows and an empty `1.csv` already exists. -/
theorem C3_file_layout (k me n : Nat) (hk : 0 < k) (hn : 0 < n) :
    (run ⟨k, me⟩ n).table = some ⟨n % k, n / k⟩ ∧
    ∀ j, (run ⟨k, me⟩ n).files j =
      if j ≤ n / k ∧ n / k < j + me then
        some (if j < n / k then k else n % k)
      else none := by
  obtain ⟨ht, _, hf⟩ := run_spec k me hk n hn
  exact ⟨ht, fun j => by rw [hf j]; rfl⟩

/-- Claim C3 witness: the layout after two appends under `max_records = 2`,
`max_epochs = 2`. -/
theorem C3_witness :
    (run ⟨2, 2⟩ 2).table = some ⟨0, 1⟩ ∧
    ∀ j, (run ⟨2, 2⟩ 2).files j =
      if j ≤ 1 ∧ 1 < j + 2 then some (if j < 1 then 2 else 0) else none :=
  C3_file_layout 2 2 2 (by decide) (by decide)

/-- Claim C4 counterexample: with `max_epochs = 0`, after the first log call
the table sits at epoch 0 but the file at its current epoch does NOT exist:
the retention step `delete_old_log_file(0, 0, ..)` deletes the file that was
just created, and the rows keep flowing into the unlinked handle. -/
theorem C4_counterexample :
    (run ⟨2, 0⟩ 1).table = some ⟨1, 0⟩ ∧ (run ⟨2, 0⟩ 1).files 0 = none := by
  refine ⟨by decide, by decide⟩

/-- Claim C4 (amended): with `max_epochs = 0` no log file for the table exists
on disk after any log call — not even the current epoch's file, which the
retention step deletes immediately after it is created (the open handle keeps
writing to the unlinked file). -/
theorem C4_max_epochs_zero (k n j : Nat) (hk : 0 < k) :
    (run ⟨k, 0⟩ n).files j = none := by
  cases n with
  | zero => rfl
  | succ n =>
    obtain ⟨_, _, hf⟩ := run_spec k 0 hk (n + 1) (Nat.succ_pos n)
    rw [hf j]
    simp only [epochFilesSpec]
    rw [if_neg (by omega)]

/-- Claim C4 witness: concrete instance at `max_records = 2`, one append. -/
theorem C4_witness : (run ⟨2, 0⟩ 1).files 0 = none :=
  C4_max_epochs_zero 2 1 0 (by decide)

/-- Claim C5 (confirmed): after any rotation producing epoch `e = n / k` (the
`n`-th append with `k ∣ n` in one process lifetime from a fresh state), no log
file exists at any epoch `j` with `j + max_epochs < e`, the file at epoch
`e - max_epochs` is absent (when that index is non-negative), every epoch from
`e - max_epochs + 1` up to `e` has a file, and at most `max_epochs + 1` log
files exist for the table. -/
theorem C5_retention_invariant (k me n : Nat) (hk : 0 < k) (hn : 0 < n)
    (_hrot : n % k = 0) :
    (∀ j, j + me < n / k → (run ⟨k, me⟩ n).files j = none) ∧
    (me ≤ n / k → (run ⟨k, me⟩ n).files (n / k - me) = none) ∧
    (∀ j, j ≤ n / k → n / k < j + me →
      ∃ r, (run ⟨k, me⟩ n).files j = some r) ∧
    ((Finset.range (n / k + 1)).filter
      (fun j => (run ⟨k, me⟩ n).files j ≠ none)).card ≤ me + 1 := by
  obtain ⟨_, _, hf⟩ := run_spec k me hk n hn
  refine ⟨fun j hj => ?_, fun hme => ?_, fun j hj1 hj2 => ?_, ?_⟩
  · rw [hf j]
    simp only [epochFilesSpec]
    rw [if_neg (by omega)]
  · rw [hf (n / k - me)]
    simp only [epochFilesSpec]
    rw [if_neg (by omega)]
  · refine ⟨if j < n / k then k else n % k, ?_⟩
    rw [hf j]
    simp only [epochFilesSpec]
    rw [if_pos ⟨hj1, hj2⟩]
  · have hsub : (Finset.range (n / k + 1)).filter
        (fun j => (run ⟨k, me⟩ n).files j ≠ none) ⊆
        Finset.Icc (n / k + 1 - me) (n / k) := by
      intro j hj
      rw [Finset.mem_filter, Finset.mem_range] at hj
      obtain ⟨hjr, hjne⟩ := hj
      rw [hf j] at hjne
      simp only [epochFilesSpec] at hjne
      by_cases hc : j ≤ n / k ∧ n / k < j + me
      · rw [Finset.mem_Icc]
        omega
      · rw [if_neg hc] at hjne
        exact absurd rfl hjne
    calc ((Finset.range (n / k + 1)).filter
        (fun j => (run ⟨k, me⟩ n).files j ≠ none)).card
        ≤ (Finset.Icc (n / k + 1 - me) (n / k)).card :=
          Finset.card_le_card hsub
      _ = n / k + 1 - (n / k + 1 - me) := by rw [Nat.card_Icc]
      _ ≤ me + 1 := by omega

/-- Claim C5 witness: after the rotation produced by the 6th append under
`max_records = 2`, `max_epochs = 2` (current epoch 3), the epoch-0 file is
gone. -/
theorem C5_witness : (run ⟨2, 2⟩ 6).files 0 = none :=
  (C5_retention_invariant 2 2 6 (by decide) (by decide) (by decide)).1 0
    (by decide)

/-- Claim C6 counterexample: with two tables whose first flush fails, only one
flush is attempted — the `expect` in src/lib.rs line 93 aborts at the first
failure, so the second table's flush never runs and nothing is accumulated,
contrary to the claim. -/
theorem C6_counterexample :
    CsvLogger.flush [Except.error IoErr.mk, Except.ok ()] =
      (1, some IoErr.mk) := by
  decide

/-- Claim C6 (amended): the manager-level flush attempts every table only when
no flush fails; at the first failing table it aborts fatally, so the tables
after it are not attempted and only that first error surfaces (no
accumulation). -/
theorem C6_flush_aborts (pre post : List (Except IoErr Unit)) (e : IoErr)
    (hpre : ∀ x ∈ pre, x = Except.ok ()) :
    CsvLogger.flush (pre ++ Except.error e :: post) =
      (pre.length + 1, some e) ∧
    CsvLogger.flush pre = (pre.length, none) := by
  induction pre with
  | nil => exact ⟨rfl, rfl⟩
  | cons x xs ih =>
    have hx : x = Except.ok () := hpre x (List.mem_cons_self ..)
    obtain ⟨ih1, ih2⟩ := ih fun y hy => hpre y (List.mem_cons_of_mem _ hy)
    subst hx
    constructor
    · rw [List.cons_append, CsvLogger.flush, ih1]
      simp [List.length_cons]
    · rw [CsvLogger.flush, ih2]
      simp [List.length_cons]

/-- Claim C6 witness: one healthy table before a failing one gives two
attempts then the abort; a map of one healthy table flushes it. -/
theorem C6_witness :
    CsvLogger.flush [Except.ok (), Except.error IoErr.mk] =
      (2, some IoErr.mk) ∧
    CsvLogger.flush [Except.ok ()] = (1, none) :=
  C6_flush_aborts [Except.ok ()] [] IoErr.mk (by simp)

/-- Claim C7 (confirmed): persisting epoch `E` and then recovering yields
`some E` (and keeps the marker); recovering with no marker file yields no
prior epoch without an error; recovering from an unparseable marker yields no
prior epoch without an error and deletes the bad marker file, so a future
persist starts clean. -/
theorem C7_epoch_roundtrip :
    (∀ E : Nat, cur_epoch (write_epoch E) = (some (natToString E), some E)) ∧
    cur_epoch none = (none, none) ∧
    (∀ content, rustParseUsize content = none →
      cur_epoch (some content) = (none, none)) := by
  refine ⟨fun E => ?_, rfl, fun content h => ?_⟩
  · rw [write_epoch, cur_epoch, rustParseUsize_natToString]
  · rw [cur_epoch, h]

/-- Claim C7 witness: a marker holding the text `oops` recovers as no prior
epoch and is deleted. -/
theorem C7_witness : cur_epoch (some ['o', 'o', 'p', 's']) = (none, none) :=
  C7_epoch_roundtrip.2.2 ['o', 'o', 'p', 's'] (by decide)

/-- Claim C8 (confirmed): the epoch marker is written only when a new epoch is
opened: a log call on an existing table whose append leaves the count below
the rotation threshold leaves the marker file untouched, and a rotating
append rewrites it with the new epoch. -/
theorem C8_marker_only_new_epoch (k me : Nat) (s : LogState) (t : Table)
    (hs : s.table = some t) :
    (t.records_written + 1 < k →
      (CsvLogger.log ⟨k, me⟩ s).marker = s.marker) ∧
    (k ≤ t.records_written + 1 →
      (CsvLogger.log ⟨k, me⟩ s).marker = write_epoch (t.epoch + 1)) := by
  rw [log_of_some ⟨k, me⟩ s t hs]
  constructor
  · intro h
    exact appendAndRotate_marker_of_lt _ _ _ _ h
  · intro h
    exact appendAndRotate_marker_of_ge _ _ _ _ h

/-- Claim C8 witness: with `max_records = 3`, the second append does not
rotate and the marker file content is unchanged. -/
theorem C8_witness :
    (CsvLogger.log ⟨3, 2⟩ (run ⟨3, 2⟩ 1)).marker = (run ⟨3, 2⟩ 1).marker :=
  (C8_marker_only_new_epoch 3 2 (run ⟨3, 2⟩ 1) ⟨1, 0⟩ (by decide)).1
    (by decide)

/-- Claim C9 (confirmed): every log call keeps the invariant that the table's
`records_written` is strictly below `max_records` on return (reaching
`max_records` replaces the writer and resets the count within the same call),
and consequently every rotated-out epoch file that still exists received
exactly `max_records` data rows. -/
theorem C9_records_below_max (k me : Nat) (hk : 0 < k) :
    (∀ s : LogState, (∀ u, s.table = some u → u.records_written < k) →
      ∀ u, (CsvLogger.log ⟨k, me⟩ s).table = some u → u.records_written < k) ∧
    (∀ n j, 0 < n → j < n / k → (run ⟨k, me⟩ n).files j ≠ none →
      (run ⟨k, me⟩ n).files j = some k) := by
  constructor
  · intro s hinv u hu
    cases hs : s.table with
    | some t =>
      have ht : t.records_written < k := hinv t hs
      rw [log_of_some ⟨k, me⟩ s t hs] at hu
      by_cases h : k ≤ t.records_written + 1
      · rw [appendAndRotate_table_of_ge _ _ _ _ h] at hu
        obtain ⟨rfl⟩ : u = ⟨0, t.epoch + 1⟩ := by
          exact (Option.some.injEq _ _ ▸ hu.symm)
        exact hk
      · rw [appendAndRotate_table_of_lt _ _ _ _
          (show t.records_written + 1 < k by omega)] at hu
        obtain ⟨rfl⟩ : u = ⟨t.records_written + 1, t.epoch⟩ := by
          exact (Option.some.injEq _ _ ▸ hu.symm)
        show t.records_written + 1 < k
        omega
    | none =>
      rw [log_of_none ⟨k, me⟩ s hs] at hu
      by_cases h : k ≤ 1
      · rw [appendAndRotate_table_of_ge _ _ _ _
          (show k ≤ (Table.new (startingEpoch s.marker)).records_written + 1
            from h)] at hu
        obtain ⟨rfl⟩ : u = ⟨0, (Table.new (startingEpoch s.marker)).epoch + 1⟩ := by
          exact (Option.some.injEq _ _ ▸ hu.symm)
        exact hk
      · rw [appendAndRotate_table_of_lt _ _ _ _
          (show (Table.new (startingEpoch s.marker)).records_written + 1 < k
            by simp [Table.new]; omega)] at hu
        obtain ⟨rfl⟩ :
            u = ⟨(Table.new (startingEpoch s.marker)).records_written + 1,
              (Table.new (startingEpoch s.marker)).epoch⟩ := by
          exact (Option.some.injEq _ _ ▸ hu.symm)
        simp [Table.new]
        omega
  · intro n j hn hj hne
    obtain ⟨_, _, hf⟩ := run_spec k me hk n hn
    rw [hf j] at hne ⊢
    simp only [epochFilesSpec] at hne ⊢
    by_cases hc : j ≤ n / k ∧ n / k < j + me
    · rw [if_pos hc] at hne ⊢
      rw [if_pos hj]
    · rw [if_neg hc] at hne
      exact absurd rfl hne

/-- Claim C9 witness: with `max_records = 2` and `max_epochs = 3`, after 4
appends the rotated-out epoch-0 file holds exactly 2 rows. -/
theorem C9_witness : (run ⟨2, 3⟩ 4).files 0 = some 2 :=
  (C9_records_below_max 2 3 (by decide)).2 4 0 (by decide) (by decide)
    (by decide)

/-- Claim C10 (confirmed): `Table.serialize` is atomic on error with respect
to the table's counters: when the writer returns an error, both
`records_written` and `epoch` are unchanged and the error propagates; on
success `records_written` gains exactly one and `epoch` is unchanged. -/
theorem C10_serialize_atomic :
    (∀ (t : Table) (e : CsvError),
      (t.serialize (Except.error e)).1 = t ∧
      (t.serialize (Except.error e)).2 = Except.error e) ∧
    (∀ t : Table,
      (t.serialize (Except.ok ())).1.records_written =
        t.records_written + 1 ∧
      (t.serialize (Except.ok ())).1.epoch = t.epoch ∧
      (t.serialize (Except.ok ())).2 = Except.ok ()) :=
  ⟨fun _ _ => ⟨rfl, rfl⟩, fun _ => ⟨rfl, rfl, rfl⟩⟩

